import Mathlib

/-!
Verification of the scene-graph core of `three-rs` (`src/hub.rs`),
shallowly embedded in Lean 4.

Machine floats (`f32`) are modelled as rationals: no verified claim
depends on floating-point rounding, only on which values are stored and
copied.  External collaborators excluded by the spec (GPU handles, the
audio backend, text shaping, `cgmath`'s transform concatenation,
`color::to_linear_rgb`) are modelled opaquely: either as `Nat` tokens or
as function parameters of the embedding.
-/

namespace Three

/-- Scalar type of the embedding, standing in for `f32`. -/
abbrev F32 := ℚ

/-- `mint::Vector3<f32>` / `cgmath::Vector3<f32>`. -/
structure Vector3 where
  x : F32
  y : F32
  z : F32
deriving DecidableEq, Repr

/-- `mint::Quaternion<f32>` (scalar part `s`, vector part `v`). -/
structure Quaternion where
  s : F32
  v : Vector3
deriving DecidableEq, Repr

/-- `cgmath::Decomposed<Vector3<f32>, Quaternion<f32>>`: the node-local
decomposed transform with uniform `scale`, rotation `rot` and
displacement `disp`. -/
structure Transform where
  scale : F32
  rot : Quaternion
  disp : Vector3
deriving DecidableEq, Repr

/-- Modelled from the spec: `froggy` generational handles are not under
`src/`; the spec says handles compare by identity (stable index +
generation counter).  Strong and weak pointers carry the same identity
data; they differ only in whether they keep the slot alive, which the
storage model below tracks via slot occupancy. -/
structure Pointer where
  index : Nat
  epoch : Nat
deriving DecidableEq, Repr

/-- Opaque token for a `ShadowMap` handle. -/
abbrev ShadowMap := Nat

/-- Opaque token for a `ShadowProjection` value. -/
abbrev ShadowProjection := Nat

/-- Opaque token for a `skeleton::Skeleton` object handle (named
`SkeletonHandle` because `SubNode.Skeleton` takes the name below). -/
abbrev SkeletonHandle := Nat

/-- Opaque token for a font handle. -/
abbrev Font := Nat

/-- Opaque token for a `gfx_glyph` layout value. -/
abbrev Layout := Nat

/-- `three::Color`, a packed integer colour. -/
abbrev Color := Nat

/-- Modelled from the spec: the texture map held by a sprite material;
`material.rs`/`texture.rs` are not under `src/`.  The only use the core
makes of it is `set_texel_range(base, size)`, modelled as storing the
requested range. -/
structure TextureMap where
  texelRange : Option ((Int × Int) × (Nat × Nat))
deriving DecidableEq, Repr

/-- `Texture::set_texel_range` (modelled from the spec: stores the
requested base/size pair). -/
def TextureMap.set_texel_range (map : TextureMap) (base : Int × Int) (size : Nat × Nat) :
    TextureMap :=
  { map with texelRange := some (base, size) }

/-- Modelled from the spec: `material::Material` is not under `src/`.
The dispatcher distinguishes only the `Sprite` sub-kind (which carries a
texture map) from every other sub-kind, so the non-sprite sub-kinds are
collapsed into one constructor tagged by a number. -/
inductive Material where
  | Sprite (map : TextureMap)
  | NonSprite (kind : Nat)
deriving DecidableEq, Repr

/-- Whether a material is the sprite sub-kind. -/
def Material.isSprite : Material → Bool
  | .Sprite _ => true
  | .NonSprite _ => false

/-- Modelled from the spec: the audio backend in §6 receives append /
pause / resume / stop / set-volume; playback semantics are the
collaborator's job, so the state merely records what was requested. -/
structure AudioData where
  clips : List Nat
  paused : Bool
  stopped : Bool
  volume : F32
deriving DecidableEq, Repr

/-- `audio::Operation`. -/
inductive AudioOperation where
  | Append (clip : Nat)
  | Pause
  | Resume
  | Stop
  | SetVolume (volume : F32)
deriving DecidableEq, Repr

/-- `Hub::process_audio` (modelled from the spec: applies the typed
operation to the audio source state). -/
def process_audio (operation : AudioOperation) (data : AudioData) : AudioData :=
  match operation with
  | .Append clip => { data with clips := data.clips ++ [clip] }
  | .Pause => { data with paused := true }
  | .Resume => { data with paused := false }
  | .Stop => { data with stopped := true }
  | .SetVolume volume => { data with volume := volume }

/-- An RGBA colour as stored in a `gfx_glyph` section text. -/
structure Color4 where
  r : F32
  g : F32
  b : F32
  a : F32
deriving DecidableEq, Repr

/-- The single `SectionText` of a UI text node.  `hub.rs` only ever
touches `section.text[0]`, and text nodes are created with exactly one
section text, so it is modelled as one field rather than a vector. -/
structure SectionText where
  color : Color4
  scale : F32
  text : String
deriving DecidableEq, Repr

/-- The `gfx_glyph` section description of a text node (the fields
`hub.rs` mutates).  Named `TextSection` because `section` is reserved in
Lean; the field `sect` models `TextData::section`. -/
structure TextSection where
  screen_position : F32 × F32
  bounds : F32 × F32
  text0 : SectionText
deriving DecidableEq, Repr

/-- `text::TextData` (the fields `Hub::process_text` mutates). -/
structure TextData where
  font : Font
  layout : Layout
  sect : TextSection
deriving DecidableEq, Repr

/-- `text::Operation`. -/
inductive TextOperation where
  | Color (color : Color)
  | Font (font : Font)
  | Layout (layout : Layout)
  | Opacity (opacity : F32)
  | Pos (point : F32 × F32)
  | Scale (scale : F32)
  | Size (size : F32 × F32)
  | Text (text : String)
deriving DecidableEq, Repr

/-- `Hub::process_text`, parametric in `rgbOf`, the external
`color::to_linear_rgb` conversion (not under `src/`). -/
def process_text (rgbOf : Color → F32 × F32 × F32) (operation : TextOperation)
    (data : TextData) : TextData :=
  match operation with
  | .Color color =>
      let rgb := rgbOf color
      { data with sect :=
        { data.sect with text0 :=
          { data.sect.text0 with color :=
            { r := rgb.1, g := rgb.2.1, b := rgb.2.2, a := 0 } } } }
  | .Font font => { data with font := font }
  | .Layout layout => { data with layout := layout }
  | .Opacity opacity =>
      { data with sect :=
        { data.sect with text0 :=
          { data.sect.text0 with color :=
            { data.sect.text0.color with a := opacity } } } }
  | .Pos point => { data with sect := { data.sect with screen_position := point } }
  | .Scale scale =>
      { data with sect :=
        { data.sect with text0 := { data.sect.text0 with scale := scale } } }
  | .Size size => { data with sect := { data.sect with bounds := size } }
  | .Text text =>
      { data with sect :=
        { data.sect with text0 := { data.sect.text0 with text := text } } }

/-- One morph-target slot (`render.rs` `DisplacementContribution`,
modelled from the spec: one-hot position/normal/tangent coefficients
plus a weight). -/
structure DisplacementContribution where
  position : F32
  normal : F32
  tangent : F32
  weight : F32
deriving DecidableEq, Repr

/-- `render::GpuData`: only the morph-target contribution slots are
relevant to the dispatcher; the fixed-size array `[_; MAX_TARGETS]` is
modelled as a list paired positionally with operation payloads. -/
structure GpuData where
  displacement_contributions : List DisplacementContribution
deriving DecidableEq, Repr

/-- `mesh::Target`: the category a morph-target slot is mapped to. -/
inductive Target where
  | Position
  | Normal
  | Tangent
  | None
deriving DecidableEq, Repr

/-- `light::SubLight`. -/
inductive SubLight where
  | Ambient
  | Directional
  | Hemisphere (ground : Color)
  | Point
deriving DecidableEq, Repr

/-- `hub::LightData`. -/
structure LightData where
  color : Color
  intensity : F32
  sub_light : SubLight
  shadow : Option (ShadowMap × ShadowProjection)
deriving DecidableEq, Repr

/-- `hub::SkeletonData` (GPU buffers modelled as opaque tokens). -/
structure SkeletonData where
  bones : List Nat
  inverse_bind_matrices : List Nat
  gpu_buffer : Nat
  cpu_buffer : List Nat
deriving DecidableEq, Repr

/-- `hub::SubNode`: the closed payload variant set of a node. -/
inductive SubNode where
  | Empty
  | Audio (data : AudioData)
  | UiText (data : TextData)
  | Visual (material : Material) (gpu : GpuData) (skeleton : Option SkeletonHandle)
  | Light (data : LightData)
  | Scene
  | Skeleton (data : SkeletonData)
deriving DecidableEq, Repr

/-- The payload variant tag of a `SubNode`. -/
inductive SubNodeTag where
  | Empty
  | Audio
  | UiText
  | Visual
  | Light
  | Scene
  | Skeleton
deriving DecidableEq, Repr

/-- Tag of a payload. -/
def SubNode.tag : SubNode → SubNodeTag
  | .Empty => .Empty
  | .Audio _ => .Audio
  | .UiText _ => .UiText
  | .Visual _ _ _ => .Visual
  | .Light _ => .Light
  | .Scene => .Scene
  | .Skeleton _ => .Skeleton

/-- `node::NodeInternal` (modelled from the spec §3, which lists exactly
the fields `hub.rs` uses: authored `visible`/`transform`, derived
`world_visible`/`world_transform`/`scene_id`, the optional strong
`parent` handle, and the payload variant). -/
structure NodeInternal where
  visible : Bool
  world_visible : Bool
  transform : Transform
  world_transform : Transform
  parent : Option Pointer
  scene_id : Option Nat
  sub_node : SubNode
deriving DecidableEq, Repr

/-- One slot of the generational store: a generation counter and the
node currently occupying the slot (`none` after destruction). -/
structure Slot where
  epoch : Nat
  node : Option NodeInternal
deriving DecidableEq, Repr

/-- The committed part of `froggy::Storage<NodeInternal>`, in creation
(= index) order. -/
abbrev Storage := List Slot

/-- Resolving a pointer against the storage: succeeds when the index is
in range, the generation matches, and the slot is occupied.  This is
both `WeakPointer::upgrade` followed by indexing, and the prefix lookup
`left.get` of a cursor when applied to a prefix of the storage. -/
def lookupNode (st : Storage) (p : Pointer) : Option NodeInternal :=
  match st[p.index]? with
  | some sl => if sl.epoch = p.epoch then sl.node else none
  | none => none

/-- `hub::Operation`: the closed set of mutation requests. -/
inductive Operation where
  | SetAudio (operation : AudioOperation)
  | SetParent (parent : Pointer)
  | SetVisible (visible : Bool)
  | SetText (operation : TextOperation)
  | SetTransform (pos : Option Vector3) (rot : Option Quaternion) (scale : Option F32)
  | SetMaterial (material : Material)
  | SetSkeleton (skeleton : SkeletonHandle)
  | SetShadow (map : ShadowMap) (proj : ShadowProjection)
  | SetTargets (targets : List Target)
  | SetTexelRange (base : Int × Int) (size : Nat × Nat)
  | SetWeights (weights : List F32)
deriving DecidableEq, Repr

/-- `hub::Message`: a weak node reference paired with an operation. -/
abbrev Message := Pointer × Operation

/-- Is the payload the `Visual` variant? -/
def SubNode.isVisual : SubNode → Bool
  | .Visual _ _ _ => true
  | _ => false

/-- The weight-array assignment of the `SetWeights` arm: each morph slot
gets the corresponding entry of `weights` (`gpu_data.displacement_contributions[i].weight = weights[i]`
for `i` in `0 .. MAX_TARGETS`). -/
def set_weights (gpu : GpuData) (weights : List F32) : GpuData :=
  let dcs := List.zipWith (fun dc w => { dc with weight := w })
    gpu.displacement_contributions weights
  { gpu with displacement_contributions := dcs }

/-- The per-slot assignment of the `SetTargets` arm: one-hot
position/normal/tangent coefficients per slot; the `weight` field is not
touched. -/
def set_target (dc : DisplacementContribution) (t : Target) : DisplacementContribution :=
  match t with
  | .Position => { dc with position := 1, normal := 0, tangent := 0 }
  | .Normal => { dc with position := 0, normal := 1, tangent := 0 }
  | .Tangent => { dc with position := 0, normal := 0, tangent := 1 }
  | .None => { dc with position := 0, normal := 0, tangent := 0 }

/-- The effect of one drained operation on the addressed node itself,
for every operation except `SetWeights` (whose fan-out branch touches
other nodes and is handled at storage level in `applyMessage`).
`none` models a panic aborting the process: the only `none` arm is
`SetTexelRange` against a visual node whose material is not the sprite
sub-kind, mirroring the `panic!` in `hub.rs`. -/
def applyOperation (rgbOf : Color → F32 × F32 × F32) (operation : Operation)
    (n : NodeInternal) : Option NodeInternal :=
  match operation with
  | .SetAudio operation =>
      match n.sub_node with
      | .Audio data => some { n with sub_node := .Audio (process_audio operation data) }
      | _ => some n
  | .SetParent parent => some { n with parent := some parent }
  | .SetVisible visible => some { n with visible := visible }
  | .SetTransform pos rot scale =>
      let t := n.transform
      let t := match pos with | some p => { t with disp := p } | none => t
      let t := match rot with | some r => { t with rot := r } | none => t
      let t := match scale with | some s => { t with scale := s } | none => t
      some { n with transform := t }
  | .SetMaterial material =>
      match n.sub_node with
      | .Visual _ gpu skeleton => some { n with sub_node := .Visual material gpu skeleton }
      | _ => some n
  | .SetTexelRange base size =>
      match n.sub_node with
      | .Visual material gpu skeleton =>
          match material with
          | .Sprite map =>
              some { n with sub_node := .Visual (.Sprite (map.set_texel_range base size)) gpu skeleton }
          | .NonSprite _ => none
      | _ => some n
  | .SetText operation =>
      match n.sub_node with
      | .UiText data => some { n with sub_node := .UiText (process_text rgbOf operation data) }
      | _ => some n
  | .SetSkeleton skeleton =>
      match n.sub_node with
      | .Visual material gpu _ => some { n with sub_node := .Visual material gpu (some skeleton) }
      | _ => some n
  | .SetShadow map proj =>
      match n.sub_node with
      | .Light data => some { n with sub_node := .Light { data with shadow := some (map, proj) } }
      | _ => some n
  | .SetTargets targets =>
      match n.sub_node with
      | .Visual material gpu skeleton =>
          let dcs := List.zipWith set_target gpu.displacement_contributions targets
          some { n with sub_node := .Visual material { gpu with displacement_contributions := dcs } skeleton }
      | _ => some n
  | .SetWeights _ => some n

/-- Replace the node stored at index `i` (keeping the slot's epoch). -/
def setNodeAt (st : Storage) (i : Nat) (n : NodeInternal) : Storage :=
  match st[i]? with
  | some sl => st.set i { sl with node := some n }
  | none => st

/-- The fan-out branch of `SetWeights`: a node parented to the addressed
pointer that carries a `Visual` payload gets the weight array; everyone
else is untouched. -/
def fanoutNode (ptr : Pointer) (weights : List F32) (m : NodeInternal) : NodeInternal :=
  if m.parent = some ptr then
    match m.sub_node with
    | .Visual material gpu skeleton =>
        { m with sub_node := .Visual material (set_weights gpu weights) skeleton }
    | _ => m
  else m

/-- Lift `fanoutNode` to a storage slot. -/
def fanoutSlot (ptr : Pointer) (weights : List F32) (sl : Slot) : Slot :=
  { sl with node := sl.node.map (fanoutNode ptr weights) }

/-- The effect of one drained message (after a successful upgrade of the
weak reference to `ptr`) on the whole storage.  `none` models the panic
of the `SetTexelRange` arm.  `SetWeights` is dispatched here because its
fan-out branch walks the whole storage; every other operation mutates
only the addressed slot through `applyOperation`. -/
def applyMessage (rgbOf : Color → F32 × F32 × F32) (ptr : Pointer)
    (operation : Operation) (st : Storage) : Option Storage :=
  match operation with
  | .SetWeights weights =>
      match lookupNode st ptr with
      | some n =>
          match n.sub_node with
          | .Visual material gpu skeleton =>
              some (setNodeAt st ptr.index
                { n with sub_node := .Visual material (set_weights gpu weights) skeleton })
          | _ => some (st.map (fanoutSlot ptr weights))
      | none => some st
  | _ =>
      match lookupNode st ptr with
      | some n => (applyOperation rgbOf operation n).map (setNodeAt st ptr.index)
      | none => some st

/-- `Hub::process_messages`: drain the queued messages in order; a weak
reference that fails to upgrade makes the dispatcher skip that message;
a panic (`none`) aborts the whole drain.  (`sync_pending`, the commit of
staged insertions, is outside the committed-storage model.) -/
def process_messages (rgbOf : Color → F32 × F32 × F32) (msgs : List Message)
    (st : Storage) : Option Storage :=
  match msgs with
  | [] => some st
  | (weak_ptr, operation) :: rest =>
      match lookupNode st weak_ptr with
      | none => process_messages rgbOf rest st
      | some _ =>
          match applyMessage rgbOf weak_ptr operation st with
          | some st' => process_messages rgbOf rest st'
          | none => none

/-- One step of `Hub::update_graph` on the node under the cursor:
`done` is the already-processed prefix of the storage (the cursor's
left half), `concat` is `cgmath`'s `Transform::concat` (external to the
core, hence a parameter). -/
def stepNode (concat : Transform → Transform → Transform) (done : Storage)
    (n : NodeInternal) : NodeInternal :=
  if !n.visible then { n with world_visible := false }
  else
    match n.parent with
    | some parent_ptr =>
        match lookupNode done parent_ptr with
        | some parent =>
            { n with
              world_visible := parent.world_visible
              scene_id := parent.scene_id
              world_transform := concat parent.world_transform n.transform }
        | none =>
            -- "Parent node was created after the child, ignoring"
            { n with
              world_visible := false
              scene_id := n.scene_id
              world_transform := n.transform }
    | none =>
        { n with
          world_visible := true
          scene_id := n.scene_id
          world_transform := n.transform }

/-- `stepNode` lifted to a slot; an empty slot is passed over by the
cursor unchanged. -/
def stepSlot (concat : Transform → Transform → Transform) (done : Storage)
    (sl : Slot) : Slot :=
  { sl with node := sl.node.map (stepNode concat done) }

/-- The cursor loop of `Hub::update_graph`: nodes are visited in
creation order, and each node sees the already-updated prefix. -/
def updateGraphGo (concat : Transform → Transform → Transform)
    (done todo : Storage) : Storage :=
  match todo with
  | [] => done
  | sl :: rest => updateGraphGo concat (done ++ [stepSlot concat done sl]) rest

/-- `Hub::update_graph`: one propagation pass over the whole storage. -/
def update_graph (concat : Transform → Transform → Transform) (st : Storage) : Storage :=
  updateGraphGo concat [] st

/-- Does the node in slot `i` carry a parent pointer that resolves to
slot `j` strictly earlier in creation order?  (This is the resolution
the cursor's prefix lookup performs for slot `i`.) -/
def resolves (st : Storage) (i j : Nat) : Bool :=
  match st[i]? with
  | some sl =>
      match sl.node with
      | some n =>
          match n.parent with
          | some p => p.index == j && decide (j < i) && (lookupNode st p).isSome
          | none => false
      | none => false
  | none => false

/-- The resolved strict-ancestor relation: `Ancestor st a i` holds when
following parent pointers from slot `i` (each resolving to an earlier
slot) reaches slot `a`. -/
inductive Ancestor (st : Storage) : Nat → Nat → Prop where
  | parent {i j : Nat} : resolves st i j = true → Ancestor st j i
  | trans {i j a : Nat} : resolves st i j = true → Ancestor st a j → Ancestor st a i

/-- Whether an operation's kind fails to match the payload variant it
dispatches on.  `SetParent`, `SetVisible` and `SetTransform` apply to
every node, so they have no mismatch; `SetTexelRange` is the fatal
exception handled separately; `SetWeights` is dual-targeted by design
(§4.3) rather than kind-dispatched. -/
def kindMismatch (operation : Operation) (s : SubNode) : Bool :=
  match operation with
  | .SetAudio _ => !(s.tag == .Audio)
  | .SetText _ => !(s.tag == .UiText)
  | .SetMaterial _ => !(s.tag == .Visual)
  | .SetSkeleton _ => !(s.tag == .Visual)
  | .SetTargets _ => !(s.tag == .Visual)
  | .SetShadow _ _ => !(s.tag == .Light)
  | _ => false

/-- The payload variant tag carried by a slot (`none` for a free slot). -/
def slotTag (sl : Slot) : Option SubNodeTag :=
  sl.node.map (fun n => n.sub_node.tag)

/-! Concrete values used to exercise the theorems on closed inputs. -/

/-- The identity decomposed transform. -/
def exT1 : Transform :=
  { scale := 1, rot := { s := 1, v := { x := 0, y := 0, z := 0 } },
    disp := { x := 0, y := 0, z := 0 } }

/-- A transform distinguishable from `exT1`. -/
def exT2 : Transform := { exT1 with scale := 2 }

/-- A third distinguishable transform. -/
def exT3 : Transform := { exT1 with scale := 3 }

/-- A concrete stand-in for `cgmath`'s concatenation. -/
def exConcat : Transform → Transform → Transform := fun a _ => a

/-- A concrete stand-in for `color::to_linear_rgb`. -/
def rgb0 : Color → F32 × F32 × F32 := fun _ => (0, 0, 0)

/-- A plain visible group node. -/
def exNode : NodeInternal :=
  { visible := true, world_visible := true, transform := exT1,
    world_transform := exT1, parent := none, scene_id := none, sub_node := .Empty }

/-- Root node for the parent-composition example. -/
def c1Parent : NodeInternal := { exNode with scene_id := some 7, world_transform := exT2 }

/-- Child node for the parent-composition example. -/
def c1Child : NodeInternal :=
  { exNode with parent := some { index := 0, epoch := 0 }, transform := exT3 }

/-- Two-node storage: parent in slot 0, child in slot 1. -/
def c1Storage : Storage :=
  [{ epoch := 0, node := some c1Parent }, { epoch := 0, node := some c1Child }]

/-- An invisible node with a dangling parent pointer and a stale world
transform. -/
def c5Node : NodeInternal :=
  { exNode with
    visible := false
    parent := some { index := 5, epoch := 0 }
    world_transform := exT2 }

/-- Storage holding only `c5Node`. -/
def c5Storage : Storage := [{ epoch := 0, node := some c5Node }]

/-- A visible node with a dangling parent pointer. -/
def c5bNode : NodeInternal :=
  { exNode with
    parent := some { index := 5, epoch := 0 }
    world_transform := exT2
    scene_id := some 4 }

/-- Storage holding only `c5bNode`. -/
def c5bStorage : Storage := [{ epoch := 0, node := some c5bNode }]

/-- An invisible node with a stale world transform and a scene id. -/
def c7Node : NodeInternal :=
  { exNode with visible := false, world_transform := exT2, scene_id := some 3 }

/-- Storage holding only `c7Node`. -/
def c7Storage : Storage := [{ epoch := 0, node := some c7Node }]

/-- An invisible root. -/
def c8Root : NodeInternal := { exNode with visible := false }

/-- A visible child of `c8Root`. -/
def c8Child : NodeInternal := { exNode with parent := some { index := 0, epoch := 0 } }

/-- Invisible root in slot 0, visible child in slot 1. -/
def c8Storage : Storage :=
  [{ epoch := 0, node := some c8Root }, { epoch := 0, node := some c8Child }]

/-- A visual node with a non-sprite material. -/
def c3Visual : NodeInternal :=
  { exNode with
    sub_node := .Visual (.NonSprite 0) { displacement_contributions := [] } none }

/-- A one-slot morph-target array. -/
def exGpu : GpuData :=
  { displacement_contributions := [{ position := 0, normal := 0, tangent := 0, weight := 0 }] }

/-- A visual child parented to slot 0. -/
def c6Child : NodeInternal :=
  { exNode with
    parent := some { index := 0, epoch := 0 }
    sub_node := .Visual (.NonSprite 0) exGpu none }

/-- Non-visual controller in slot 0 with two visual children. -/
def c6Storage : Storage :=
  [{ epoch := 0, node := some exNode },
   { epoch := 0, node := some c6Child },
   { epoch := 0, node := some c6Child }]

/-- A single occupied slot at generation 0. -/
def c2Storage : Storage := [{ epoch := 0, node := some exNode }]

/-- A weak pointer whose generation does not match `c2Storage`. -/
def c2Ptr : Pointer := { index := 0, epoch := 1 }

/-! Structural lemmas about the cursor loop of `update_graph`. -/

theorem updateGraphGo_length (concat : Transform → Transform → Transform)
    (todo : Storage) : ∀ done : Storage,
    (updateGraphGo concat done todo).length = done.length + todo.length := by
  induction todo with
  | nil => intro done; simp [updateGraphGo]
  | cons sl rest ih =>
      intro done
      rw [updateGraphGo, ih]
      simp
      omega

theorem updateGraphGo_suffix (concat : Transform → Transform → Transform)
    (todo : Storage) : ∀ done : Storage,
    ∃ suf : Storage, updateGraphGo concat done todo = done ++ suf := by
  induction todo with
  | nil => intro done; exact ⟨[], by simp [updateGraphGo]⟩
  | cons sl rest ih =>
      intro done
      obtain ⟨suf, hsuf⟩ := ih (done ++ [stepSlot concat done sl])
      refine ⟨[stepSlot concat done sl] ++ suf, ?_⟩
      rw [updateGraphGo, hsuf, List.append_assoc]

theorem updateGraphGo_take (concat : Transform → Transform → Transform)
    (done todo : Storage) :
    (updateGraphGo concat done todo).take done.length = done := by
  obtain ⟨suf, hsuf⟩ := updateGraphGo_suffix concat todo done
  rw [hsuf, List.take_left]

theorem updateGraphGo_getElem_lt (concat : Transform → Transform → Transform)
    (todo : Storage) : ∀ (done : Storage) (k : Nat), k < done.length →
    (updateGraphGo concat done todo)[k]? = done[k]? := by
  induction todo with
  | nil => intro done k _; rfl
  | cons sl rest ih =>
      intro done k hk
      rw [updateGraphGo, ih (done ++ [stepSlot concat done sl]) k (by simp; omega)]
      exact List.getElem?_append_left hk

/-- Two lists agree on a prefix when they agree pointwise below it. -/
theorem take_eq_of_getElem {α : Type} (a b : List α) (i : Nat)
    (h : ∀ k, k < i → a[k]? = b[k]?) : a.take i = b.take i := by
  apply List.ext_getElem?
  intro n
  by_cases hn : n < i
  · rw [List.getElem?_take_of_lt hn, List.getElem?_take_of_lt hn, h n hn]
  · have ha : (a.take i)[n]? = none :=
      List.getElem?_eq_none (by rw [List.length_take]; omega)
    have hb : (b.take i)[n]? = none :=
      List.getElem?_eq_none (by rw [List.length_take]; omega)
    rw [ha, hb]

/-- The central characterization of the propagation loop: the node at
position `done.length + j` of the result is the `stepNode` image of the
corresponding input node, computed against the already-processed prefix
of the result. -/
theorem updateGraphGo_getElem (concat : Transform → Transform → Transform)
    (todo : Storage) : ∀ (done : Storage) (j : Nat), j < todo.length →
    (updateGraphGo concat done todo)[done.length + j]? =
      (todo[j]?).map
        (stepSlot concat ((updateGraphGo concat done todo).take (done.length + j))) := by
  induction todo with
  | nil => intro done j hj; exact absurd hj (by simp)
  | cons sl rest ih =>
      intro done j hj
      match j with
      | 0 =>
          rw [updateGraphGo]
          have h1 : (updateGraphGo concat (done ++ [stepSlot concat done sl]) rest)[done.length + 0]? =
              (done ++ [stepSlot concat done sl])[done.length]? := by
            exact updateGraphGo_getElem_lt concat rest _ _ (by simp)
          have h2 : (done ++ [stepSlot concat done sl])[done.length]? = some (stepSlot concat done sl) :=
            List.getElem?_concat_length done _
          have h3 : (updateGraphGo concat (done ++ [stepSlot concat done sl]) rest).take (done.length + 0) = done := by
            rw [Nat.add_zero]
            have hpt : ∀ k, k < done.length →
                (updateGraphGo concat (done ++ [stepSlot concat done sl]) rest)[k]? = done[k]? := by
              intro k hk
              rw [updateGraphGo_getElem_lt concat rest _ k (by simp; omega)]
              exact List.getElem?_append_left hk
            have := take_eq_of_getElem _ done done.length hpt
            rwa [List.take_length] at this
          rw [h1, h2, h3]
          simp
      | j' + 1 =>
          rw [updateGraphGo]
          have harith : done.length + (j' + 1) = (done ++ [stepSlot concat done sl]).length + j' := by
            simp
            omega
          rw [harith, ih (done ++ [stepSlot concat done sl]) j' (by simpa using hj)]
          simp

/-- `update_graph` preserves the number of slots. -/
theorem update_graph_length (concat : Transform → Transform → Transform)
    (st : Storage) : (update_graph concat st).length = st.length := by
  rw [update_graph, updateGraphGo_length]
  simp

/-- Pointwise description of `update_graph`: slot `i` of the result is
the step image of slot `i` of the input, resolved against the processed
prefix of the result. -/
theorem update_graph_getElem (concat : Transform → Transform → Transform)
    (st : Storage) (i : Nat) :
    (update_graph concat st)[i]? =
      (st[i]?).map (stepSlot concat ((update_graph concat st).take i)) := by
  by_cases hi : i < st.length
  · have := updateGraphGo_getElem concat st [] i hi
    simpa [update_graph] using this
  · have h1 : (update_graph concat st)[i]? = none :=
      List.getElem?_eq_none (by rw [update_graph_length]; omega)
    have h2 : st[i]? = none := List.getElem?_eq_none (by omega)
    rw [h1, h2]
    rfl

/-- Resolving a pointer in a strict prefix is the same as resolving it
in the whole storage, provided the pointer's index lies in the prefix. -/
theorem lookupNode_take_lt (st : Storage) (p : Pointer) (i : Nat) (h : p.index < i) :
    lookupNode (st.take i) p = lookupNode st p := by
  unfold lookupNode
  rw [List.getElem?_take_of_lt h]

/-- Resolving a pointer in the processed prefix of the pass's output:
the looked-up node is the stepped image of the input node at the
pointer's slot. -/
theorem lookupNode_update_take (concat : Transform → Transform → Transform)
    (st : Storage) (p : Pointer) (i : Nat) (h : p.index < i) :
    lookupNode ((update_graph concat st).take i) p =
      (lookupNode st p).map (stepNode concat ((update_graph concat st).take p.index)) := by
  rw [lookupNode_take_lt _ p i h]
  unfold lookupNode
  rw [update_graph_getElem]
  cases hsl : st[p.index]? with
  | none => rfl
  | some sl =>
      by_cases he : sl.epoch = p.epoch
      · cases hnd : sl.node <;> simp [stepSlot, he, hnd]
      · simp [stepSlot, he]

/-- A pointer that fails to resolve in a prefix of the input storage
also fails to resolve in the same prefix of the pass's output. -/
theorem lookupNode_update_take_none (concat : Transform → Transform → Transform)
    (st : Storage) (p : Pointer) (i : Nat)
    (h : lookupNode (st.take i) p = none) :
    lookupNode ((update_graph concat st).take i) p = none := by
  by_cases hlt : p.index < i
  · rw [lookupNode_update_take concat st p i hlt]
    rw [lookupNode_take_lt st p i hlt] at h
    rw [h]
    rfl
  · unfold lookupNode
    have hnone : ((update_graph concat st).take i)[p.index]? = none :=
      List.getElem?_eq_none (by rw [List.length_take]; omega)
    rw [hnone]

/-- Stepping a node twice against the same processed prefix is the same
as stepping it once: the step only writes derived fields, never the
fields it reads. -/
theorem stepNode_idem (concat : Transform → Transform → Transform)
    (done : Storage) (n : NodeInternal) :
    stepNode concat done (stepNode concat done n) = stepNode concat done n := by
  obtain ⟨v, wv, t, wt, par, sc, sub⟩ := n
  by_cases hv : v
  · cases hp : par with
    | some p =>
        cases hl : lookupNode done p with
        | some q => simp [stepNode, hv, hp, hl]
        | none => simp [stepNode, hv, hp, hl]
    | none => simp [stepNode, hv, hp]
  · simp [stepNode, hv]

/-- `stepSlot` variant of `stepNode_idem`. -/
theorem stepSlot_idem (concat : Transform → Transform → Transform)
    (done : Storage) (sl : Slot) :
    stepSlot concat done (stepSlot concat done sl) = stepSlot concat done sl := by
  obtain ⟨e, nd⟩ := sl
  cases nd with
  | none => rfl
  | some n => simp [stepSlot, stepNode_idem]

/-- Inverting a successful pointer resolution. -/
theorem lookupNode_spec (st : Storage) (p : Pointer) (n : NodeInternal)
    (h : lookupNode st p = some n) :
    ∃ ps, st[p.index]? = some ps ∧ ps.epoch = p.epoch ∧ ps.node = some n := by
  unfold lookupNode at h
  split at h
  next ps hq =>
    split at h
    next he => exact ⟨ps, hq, he, h⟩
    next he => cases h
  next hq => cases h

/-- C1: a visible node whose parent pointer resolves to an earlier slot
inherits the parent's post-pass `world_visible` and `scene_id`, and its
`world_transform` is the parent's post-pass `world_transform` composed
(parent-then-child) with the node's local transform. -/
theorem update_graph_parent_composition
    (concat : Transform → Transform → Transform) (st : Storage) (i : Nat)
    (sl : Slot) (n : NodeInternal) (p : Pointer) (ps : Slot) (pn : NodeInternal)
    (hsl : st[i]? = some sl) (hn : sl.node = some n)
    (hvis : n.visible = true) (hpar : n.parent = some p) (hlt : p.index < i)
    (hps : st[p.index]? = some ps) (hep : ps.epoch = p.epoch) (hpn : ps.node = some pn) :
    ∃ sl' n' ps' pn',
      (update_graph concat st)[i]? = some sl' ∧ sl'.node = some n' ∧
      (update_graph concat st)[p.index]? = some ps' ∧ ps'.node = some pn' ∧
      n'.world_visible = pn'.world_visible ∧
      n'.scene_id = pn'.scene_id ∧
      n'.world_transform = concat pn'.world_transform n.transform := by
  have hR := update_graph_getElem concat st i
  rw [hsl] at hR
  have hRp := update_graph_getElem concat st p.index
  rw [hps] at hRp
  have hlookst : lookupNode st p = some pn := by
    simp [lookupNode, hps, hep, hpn]
  have hlook : lookupNode ((update_graph concat st).take i) p =
      some (stepNode concat ((update_graph concat st).take p.index) pn) := by
    rw [lookupNode_update_take concat st p i hlt, hlookst]
    rfl
  have hstep : stepNode concat ((update_graph concat st).take i) n =
      { n with
        world_visible := (stepNode concat ((update_graph concat st).take p.index) pn).world_visible
        scene_id := (stepNode concat ((update_graph concat st).take p.index) pn).scene_id
        world_transform :=
          concat (stepNode concat ((update_graph concat st).take p.index) pn).world_transform
            n.transform } := by
    simp [stepNode, hvis, hpar, hlook]
  refine ⟨stepSlot concat ((update_graph concat st).take i) sl,
          stepNode concat ((update_graph concat st).take i) n,
          stepSlot concat ((update_graph concat st).take p.index) ps,
          stepNode concat ((update_graph concat st).take p.index) pn,
          by rw [hR]; rfl,
          by simp [stepSlot, hn],
          by rw [hRp]; rfl,
          by simp [stepSlot, hpn],
          by rw [hstep],
          by rw [hstep],
          by rw [hstep]⟩

/-- C4: one propagation pass is idempotent — a second pass with no
intervening mutation reproduces exactly the same storage. -/
theorem update_graph_idempotent (concat : Transform → Transform → Transform)
    (st : Storage) :
    update_graph concat (update_graph concat st) = update_graph concat st := by
  apply List.ext_getElem?
  intro i
  induction i using Nat.strong_induction_on with
  | _ i ih =>
      have htake : (update_graph concat (update_graph concat st)).take i =
          (update_graph concat st).take i :=
        take_eq_of_getElem _ _ i (fun k hk => ih k hk)
      rw [update_graph_getElem concat (update_graph concat st) i, htake,
        update_graph_getElem concat st i]
      cases st[i]? with
      | none => rfl
      | some sl => simp [stepSlot_idem]

/-- C5 (amended with the visibility guard the code checks first): a
visible node whose parent pointer does not resolve within the processed
prefix is demoted to a root for the pass: `world_visible` is forced to
`false`, `scene_id` keeps its own value, and `world_transform` becomes
the local transform. -/
theorem update_graph_orphan
    (concat : Transform → Transform → Transform) (st : Storage) (i : Nat)
    (sl : Slot) (n : NodeInternal) (p : Pointer)
    (hsl : st[i]? = some sl) (hn : sl.node = some n)
    (hvis : n.visible = true) (hpar : n.parent = some p)
    (hfail : lookupNode (st.take i) p = none) :
    ∃ sl' n',
      (update_graph concat st)[i]? = some sl' ∧ sl'.node = some n' ∧
      n'.world_visible = false ∧ n'.scene_id = n.scene_id ∧
      n'.world_transform = n.transform := by
  have hR := update_graph_getElem concat st i
  rw [hsl] at hR
  have hfailR := lookupNode_update_take_none concat st p i hfail
  have hstep : stepNode concat ((update_graph concat st).take i) n =
      { n with world_visible := false, scene_id := n.scene_id,
               world_transform := n.transform } := by
    simp [stepNode, hvis, hpar, hfailR]
  refine ⟨stepSlot concat ((update_graph concat st).take i) sl,
          stepNode concat ((update_graph concat st).take i) n,
          by rw [hR]; rfl,
          by simp [stepSlot, hn],
          by rw [hstep], by rw [hstep], by rw [hstep]⟩

/-- C7: a node that is invisible at the start of the pass comes out with
`world_visible = false` and with its `world_transform` and `scene_id`
untouched. -/
theorem update_graph_invisible
    (concat : Transform → Transform → Transform) (st : Storage) (i : Nat)
    (sl : Slot) (n : NodeInternal)
    (hsl : st[i]? = some sl) (hn : sl.node = some n)
    (hvis : n.visible = false) :
    ∃ sl' n',
      (update_graph concat st)[i]? = some sl' ∧ sl'.node = some n' ∧
      n'.world_visible = false ∧
      n'.world_transform = n.world_transform ∧
      n'.scene_id = n.scene_id := by
  have hR := update_graph_getElem concat st i
  rw [hsl] at hR
  have hstep : stepNode concat ((update_graph concat st).take i) n =
      { n with world_visible := false } := by
    simp [stepNode, hvis]
  refine ⟨stepSlot concat ((update_graph concat st).take i) sl,
          stepNode concat ((update_graph concat st).take i) n,
          by rw [hR]; rfl,
          by simp [stepSlot, hn],
          by rw [hstep], by rw [hstep], by rw [hstep]⟩

/-- After the pass, a node that was authored invisible has
`world_visible = false`. -/
theorem invisible_world_hidden (concat : Transform → Transform → Transform)
    (st : Storage) (a : Nat) (sa : Slot) (na : NodeInternal)
    (hsa : st[a]? = some sa) (hna : sa.node = some na) (hv : na.visible = false) :
    ∃ sl' n', (update_graph concat st)[a]? = some sl' ∧ sl'.node = some n' ∧
      n'.world_visible = false := by
  have hR := update_graph_getElem concat st a
  rw [hsa] at hR
  have hstep : stepNode concat ((update_graph concat st).take a) na =
      { na with world_visible := false } := by
    simp [stepNode, hv]
  exact ⟨stepSlot concat ((update_graph concat st).take a) sa,
         stepNode concat ((update_graph concat st).take a) na,
         by rw [hR]; rfl, by simp [stepSlot, hna], by rw [hstep]⟩

/-- Unfolding a successful `resolves`. -/
theorem resolves_spec (st : Storage) (i j : Nat) (h : resolves st i j = true) :
    ∃ sl n p, st[i]? = some sl ∧ sl.node = some n ∧ n.parent = some p ∧
      p.index = j ∧ j < i ∧
      ∃ ps pn, st[j]? = some ps ∧ ps.epoch = p.epoch ∧ ps.node = some pn := by
  unfold resolves at h
  split at h
  next sl hsl =>
    split at h
    next n hn =>
      split at h
      next p hp =>
        simp only [Bool.and_eq_true, beq_iff_eq, decide_eq_true_eq,
          Option.isSome_iff_exists] at h
        obtain ⟨⟨hpj, hji⟩, pn0, hlook⟩ := h
        obtain ⟨ps, hps, hep, hpnode⟩ := lookupNode_spec st p pn0 hlook
        subst hpj
        exact ⟨sl, n, p, hsl, hn, hp, rfl, hji, ps, pn0, hps, hep, hpnode⟩
      next hp => cases h
    next hn => cases h
  next hsl => cases h

/-- A node sees `world_visible = false` after the pass whenever its
parent pointer resolves to a slot whose post-pass node has
`world_visible = false` (or when the node itself is invisible). -/
theorem step_world_hidden (concat : Transform → Transform → Transform)
    (st : Storage) (i j : Nat)
    (hres : resolves st i j = true)
    (hj : ∃ ps' pn', (update_graph concat st)[j]? = some ps' ∧ ps'.node = some pn' ∧
      pn'.world_visible = false) :
    ∃ sl' n', (update_graph concat st)[i]? = some sl' ∧ sl'.node = some n' ∧
      n'.world_visible = false := by
  obtain ⟨sl, n, p, hsl, hn, hp, hpj, hji, ps, pn, hps, hep, hpn⟩ := resolves_spec st i j hres
  have hR := update_graph_getElem concat st i
  rw [hsl] at hR
  refine ⟨stepSlot concat ((update_graph concat st).take i) sl,
          stepNode concat ((update_graph concat st).take i) n,
          by rw [hR]; rfl,
          by simp [stepSlot, hn],
          ?_⟩
  by_cases hv : n.visible
  · obtain ⟨ps', pn', hps', hpn', hwv⟩ := hj
    have hRj := update_graph_getElem concat st j
    rw [hps] at hRj
    rw [hRj] at hps'
    have hps'' : ps' = stepSlot concat ((update_graph concat st).take j) ps :=
      (Option.some_inj.mp hps').symm
    subst hps''
    have hpn'' : pn' = stepNode concat ((update_graph concat st).take j) pn := by
      rw [stepSlot, hpn] at hpn'
      exact (Option.some_inj.mp hpn').symm
    have hlookst : lookupNode st p = some pn := by
      simp [lookupNode, hpj, hps, hep, hpn]
    have hlook : lookupNode ((update_graph concat st).take i) p = some pn' := by
      rw [lookupNode_update_take concat st p i (by omega), hlookst, hpn'', hpj]
      rfl
    have hstep : stepNode concat ((update_graph concat st).take i) n =
        { n with
          world_visible := pn'.world_visible
          scene_id := pn'.scene_id
          world_transform := concat pn'.world_transform n.transform } := by
      simp [stepNode, hv, hp, hlook]
    rw [hstep]
    exact hwv
  · have hstep : stepNode concat ((update_graph concat st).take i) n =
        { n with world_visible := false } := by
      simp [stepNode, hv]
    rw [hstep]

/-- C8: if some resolved ancestor of slot `d` is authored invisible,
then after the pass the node in slot `d` has `world_visible = false`,
regardless of its own `visible` flag. -/
theorem update_graph_ancestor_invisible
    (concat : Transform → Transform → Transform) (st : Storage) (a d : Nat)
    (hanc : Ancestor st a d)
    (hinv : ∃ sa na, st[a]? = some sa ∧ sa.node = some na ∧ na.visible = false) :
    ∃ sl' n', (update_graph concat st)[d]? = some sl' ∧ sl'.node = some n' ∧
      n'.world_visible = false := by
  revert hinv
  induction hanc with
  | parent hres =>
      intro hinv
      obtain ⟨sa, na, hsa, hna, hv⟩ := hinv
      exact step_world_hidden concat st _ _ hres
        (invisible_world_hidden concat st _ sa na hsa hna hv)
  | trans hres _ ih =>
      intro hinv
      exact step_world_hidden concat st _ _ hres (ih hinv)

/-- Closed instance of the parent-composition theorem on a two-node
storage. -/
theorem update_graph_parent_composition_witness :
    c1Storage[1]? = some { epoch := 0, node := some c1Child } ∧
    c1Child.visible = true ∧
    c1Child.parent = some { index := 0, epoch := 0 } ∧
    (0 : Nat) < 1 ∧
    c1Storage[0]? = some { epoch := 0, node := some c1Parent } ∧
    (∃ sl' n' ps' pn',
      (update_graph exConcat c1Storage)[1]? = some sl' ∧ sl'.node = some n' ∧
      (update_graph exConcat c1Storage)[0]? = some ps' ∧ ps'.node = some pn' ∧
      n'.world_visible = pn'.world_visible ∧
      n'.scene_id = pn'.scene_id ∧
      n'.world_transform = exConcat pn'.world_transform c1Child.transform) :=
  ⟨rfl, rfl, rfl, by decide, rfl,
   update_graph_parent_composition exConcat c1Storage 1
     { epoch := 0, node := some c1Child } c1Child { index := 0, epoch := 0 }
     { epoch := 0, node := some c1Parent } c1Parent
     rfl rfl rfl rfl (by decide) rfl rfl rfl⟩

/-- Counterexample to C5 as stated: an invisible node with a dangling
parent pointer keeps its stale `world_transform` — the pass does not
set it to the local transform. -/
theorem update_graph_orphan_counterexample :
    c5Node.parent = some { index := 5, epoch := 0 } ∧
    lookupNode (c5Storage.take 0) { index := 5, epoch := 0 } = none ∧
    update_graph exConcat c5Storage =
      [{ epoch := 0, node := some { c5Node with world_visible := false } }] ∧
    ({ c5Node with world_visible := false } : NodeInternal).world_transform ≠ c5Node.transform :=
  ⟨rfl, rfl, rfl, by decide⟩

/-- Closed instance of the amended orphan theorem. -/
theorem update_graph_orphan_witness :
    c5bStorage[0]? = some { epoch := 0, node := some c5bNode } ∧
    c5bNode.visible = true ∧
    c5bNode.parent = some { index := 5, epoch := 0 } ∧
    lookupNode (c5bStorage.take 0) { index := 5, epoch := 0 } = none ∧
    (∃ sl' n',
      (update_graph exConcat c5bStorage)[0]? = some sl' ∧ sl'.node = some n' ∧
      n'.world_visible = false ∧ n'.scene_id = c5bNode.scene_id ∧
      n'.world_transform = c5bNode.transform) :=
  ⟨rfl, rfl, rfl, rfl,
   update_graph_orphan exConcat c5bStorage 0
     { epoch := 0, node := some c5bNode } c5bNode { index := 5, epoch := 0 }
     rfl rfl rfl rfl rfl⟩

/-- Closed instance of the invisible-node theorem. -/
theorem update_graph_invisible_witness :
    c7Storage[0]? = some { epoch := 0, node := some c7Node } ∧
    c7Node.visible = false ∧
    (∃ sl' n',
      (update_graph exConcat c7Storage)[0]? = some sl' ∧ sl'.node = some n' ∧
      n'.world_visible = false ∧
      n'.world_transform = c7Node.world_transform ∧
      n'.scene_id = c7Node.scene_id) :=
  ⟨rfl, rfl,
   update_graph_invisible exConcat c7Storage 0
     { epoch := 0, node := some c7Node } c7Node rfl rfl rfl⟩

/-- Closed instance of the visibility-inheritance theorem: an invisible
root hides its visible child. -/
theorem update_graph_ancestor_invisible_witness :
    Ancestor c8Storage 0 1 ∧
    (∃ sa na, c8Storage[0]? = some sa ∧ sa.node = some na ∧ na.visible = false) ∧
    (∃ sl' n',
      (update_graph exConcat c8Storage)[1]? = some sl' ∧ sl'.node = some n' ∧
      n'.world_visible = false) :=
  ⟨Ancestor.parent (by decide),
   ⟨{ epoch := 0, node := some c8Root }, c8Root, rfl, rfl, rfl⟩,
   update_graph_ancestor_invisible exConcat c8Storage 0 1
     (Ancestor.parent (by decide))
     ⟨{ epoch := 0, node := some c8Root }, c8Root, rfl, rfl, rfl⟩⟩

/-- C2: a drained message whose weak reference no longer upgrades is
skipped entirely — the dispatcher neither panics nor touches any node,
and simply continues with the remaining messages. -/
theorem process_messages_drops_stale
    (rgbOf : Color → F32 × F32 × F32) (weak_ptr : Pointer) (operation : Operation)
    (rest : List Message) (st : Storage)
    (h : lookupNode st weak_ptr = none) :
    process_messages rgbOf ((weak_ptr, operation) :: rest) st =
      process_messages rgbOf rest st := by
  simp [process_messages, h]

/-- Closed instance of the stale-message theorem: the pointer's
generation does not match the slot's. -/
theorem process_messages_drops_stale_witness :
    lookupNode c2Storage c2Ptr = none ∧
    process_messages rgb0 [(c2Ptr, Operation.SetVisible false)] c2Storage =
      process_messages rgb0 [] c2Storage :=
  ⟨rfl, process_messages_drops_stale rgb0 c2Ptr (Operation.SetVisible false) [] c2Storage rfl⟩

/-- C10: a text `Color` operation writes the whole RGBA quadruple with
alpha `0`, so it discards any opacity set earlier: applying `Color`
after `Opacity` is the same as applying `Color` alone. -/
theorem text_color_clears_opacity
    (rgbOf : Color → F32 × F32 × F32) (color : Color) (opacity : F32) (data : TextData) :
    (process_text rgbOf (.Color color) data).sect.text0.color.a = 0 ∧
    process_text rgbOf (.Color color) (process_text rgbOf (.Opacity opacity) data) =
      process_text rgbOf (.Color color) data :=
  ⟨rfl, rfl⟩

/-- C3: `SetTexelRange` against a visual node with a non-sprite material
is the one and only fatal dispatch (`none`, modelling the panic); every
other kind mismatch between an operation and the node's payload variant
leaves the node unchanged. -/
theorem setTexelRange_only_fatal (rgbOf : Color → F32 × F32 × F32) :
    (∀ (n : NodeInternal) (base : Int × Int) (size : Nat × Nat)
       (material : Material) (gpu : GpuData) (skeleton : Option SkeletonHandle),
         n.sub_node = .Visual material gpu skeleton → material.isSprite = false →
         applyOperation rgbOf (.SetTexelRange base size) n = none) ∧
    (∀ (operation : Operation) (n : NodeInternal),
       applyOperation rgbOf operation n = none →
         ∃ base size material gpu skeleton,
           operation = .SetTexelRange base size ∧
           n.sub_node = .Visual material gpu skeleton ∧ material.isSprite = false) ∧
    (∀ (operation : Operation) (n : NodeInternal),
       kindMismatch operation n.sub_node = true →
       applyOperation rgbOf operation n = some n) := by
  refine ⟨?_, ?_, ?_⟩
  · intro n base size material gpu skeleton hsub hspr
    cases material with
    | Sprite m => simp [Material.isSprite] at hspr
    | NonSprite k => simp [applyOperation, hsub]
  · intro operation n h
    cases operation <;> cases hsub : n.sub_node <;>
      (try simp [applyOperation, hsub] at h)
    rename_i base size material gpu skeleton
    cases material with
    | Sprite m => simp [applyOperation, hsub] at h
    | NonSprite k => exact ⟨base, size, .NonSprite k, gpu, skeleton, rfl, rfl, rfl⟩
  · intro operation n h
    cases operation <;> cases hsub : n.sub_node <;>
      simp_all [kindMismatch, SubNode.tag, applyOperation]

/-- Closed instances of both directions of the fatality theorem:
`SetTexelRange` on a non-sprite visual is fatal, while `SetMaterial` on
an `Empty` node is a silent no-op. -/
theorem setTexelRange_only_fatal_witness :
    c3Visual.sub_node =
      SubNode.Visual (.NonSprite 0) { displacement_contributions := [] } none ∧
    Material.isSprite (.NonSprite 0) = false ∧
    applyOperation rgb0 (.SetTexelRange (0, 0) (1, 1)) c3Visual = none ∧
    kindMismatch (.SetMaterial (.NonSprite 1)) exNode.sub_node = true ∧
    applyOperation rgb0 (.SetMaterial (.NonSprite 1)) exNode = some exNode :=
  ⟨rfl, rfl,
   (setTexelRange_only_fatal rgb0).1 c3Visual (0, 0) (1, 1) (.NonSprite 0)
     { displacement_contributions := [] } none rfl rfl,
   rfl,
   (setTexelRange_only_fatal rgb0).2.2 (.SetMaterial (.NonSprite 1)) exNode rfl⟩

/-- C6: `SetWeights` has dual targeting.  If the addressed node is
visual, exactly its own weight array is written and every other slot is
untouched; otherwise the weight array is written into the visual payload
of every node whose parent pointer equals the addressed pointer, and all
remaining slots are untouched. -/
theorem setWeights_dual_targeting
    (rgbOf : Color → F32 × F32 × F32) (ptr : Pointer) (weights : List F32)
    (st : Storage) (n : NodeInternal)
    (hlook : lookupNode st ptr = some n) :
    (∀ (material : Material) (gpu : GpuData) (skeleton : Option SkeletonHandle),
       n.sub_node = .Visual material gpu skeleton →
       applyMessage rgbOf ptr (.SetWeights weights) st =
         some (setNodeAt st ptr.index
           { n with sub_node := .Visual material (set_weights gpu weights) skeleton }) ∧
       ∀ j : Nat, j ≠ ptr.index →
         (setNodeAt st ptr.index
           { n with sub_node := .Visual material (set_weights gpu weights) skeleton })[j]? =
           st[j]?) ∧
    (n.sub_node.isVisual = false →
       ∃ st' : Storage, applyMessage rgbOf ptr (.SetWeights weights) st = some st' ∧
         (∀ (j : Nat) (sl : Slot) (m : NodeInternal) (material : Material)
            (gpu : GpuData) (skeleton : Option SkeletonHandle),
            st[j]? = some sl → sl.node = some m → m.parent = some ptr →
            m.sub_node = .Visual material gpu skeleton →
            st'[j]? = some { sl with node := some { m with sub_node := .Visual material (set_weights gpu weights) skeleton } }) ∧
         (∀ (j : Nat) (sl : Slot) (m : NodeInternal),
            st[j]? = some sl → sl.node = some m →
            m.parent ≠ some ptr ∨ m.sub_node.isVisual = false →
            st'[j]? = some sl)) := by
  constructor
  · intro material gpu skeleton hsub
    constructor
    · simp [applyMessage, hlook, hsub]
    · intro j hj
      obtain ⟨ps, hps, hep, hpn⟩ := lookupNode_spec st ptr n hlook
      unfold setNodeAt
      rw [hps]
      exact List.getElem?_set_ne (Ne.symm hj)
  · intro hnv
    have happ : applyMessage rgbOf ptr (.SetWeights weights) st =
        some (st.map (fanoutSlot ptr weights)) := by
      cases hsub : n.sub_node
      case Visual material gpu skeleton =>
        exact absurd hnv (by simp [hsub, SubNode.isVisual])
      all_goals simp [applyMessage, hlook, hsub]
    refine ⟨st.map (fanoutSlot ptr weights), happ, ?_, ?_⟩
    · intro j sl m material gpu skeleton hj hm hpar hsub
      rw [List.getElem?_map, hj]
      simp [fanoutSlot, fanoutNode, hm, hpar, hsub]
    · intro j sl m hj hm hother
      have hid : fanoutNode ptr weights m = m := by
        by_cases hp : m.parent = some ptr
        · have hmv : m.sub_node.isVisual = false :=
            hother.resolve_left (by simp [hp])
          cases hsub : m.sub_node
          all_goals try simp [fanoutNode, hp, hsub]
          simp [hsub, SubNode.isVisual] at hmv
        · simp [fanoutNode, hp]
      have hslot : fanoutSlot ptr weights sl = sl := by
        calc fanoutSlot ptr weights sl
            = { sl with node := some m } := by unfold fanoutSlot; rw [hm]; simp [hid]
          _ = { sl with node := sl.node } := by rw [hm]
          _ = sl := rfl
      rw [List.getElem?_map, hj]
      simp [hslot]

/-- Closed instance of the fan-out branch: a non-visual controller with
two visual children parented to it. -/
theorem setWeights_dual_targeting_witness :
    lookupNode c6Storage { index := 0, epoch := 0 } = some exNode ∧
    exNode.sub_node.isVisual = false ∧
    (∃ st' : Storage, applyMessage rgb0 { index := 0, epoch := 0 }
        (.SetWeights [5]) c6Storage = some st' ∧
      (∀ (j : Nat) (sl : Slot) (m : NodeInternal) (material : Material)
         (gpu : GpuData) (skeleton : Option SkeletonHandle),
         c6Storage[j]? = some sl → sl.node = some m →
         m.parent = some { index := 0, epoch := 0 } →
         m.sub_node = .Visual material gpu skeleton →
         st'[j]? = some { sl with node := some { m with sub_node := .Visual material (set_weights gpu [5]) skeleton } }) ∧
      (∀ (j : Nat) (sl : Slot) (m : NodeInternal),
         c6Storage[j]? = some sl → sl.node = some m →
         m.parent ≠ some { index := 0, epoch := 0 } ∨ m.sub_node.isVisual = false →
         st'[j]? = some sl)) :=
  ⟨rfl, rfl,
   (setWeights_dual_targeting rgb0 { index := 0, epoch := 0 } [5] c6Storage exNode rfl).2 rfl⟩

/-- Every per-node operation keeps the payload variant tag: the
dispatcher mutates fields inside the existing variant, never the variant
itself. -/
theorem applyOperation_tag (rgbOf : Color → F32 × F32 × F32)
    (operation : Operation) (n n' : NodeInternal)
    (h : applyOperation rgbOf operation n = some n') :
    n'.sub_node.tag = n.sub_node.tag := by
  cases operation <;> cases hsub : n.sub_node <;>
    simp only [applyOperation, hsub, Option.some.injEq] at h <;>
    (try (subst h; simp [SubNode.tag, hsub]))
  rename_i base size material gpu skeleton
  cases material with
  | Sprite m =>
      simp only [Option.some.injEq] at h
      subst h
      simp [SubNode.tag, hsub]
  | NonSprite k => cases h

/-- Replacing the node of an occupied slot by a node with the same
variant tag does not change the storage's tag sequence. -/
theorem setNodeAt_tagMap (st : Storage) (i : Nat) (sl : Slot) (m n' : NodeInternal)
    (hsl : st[i]? = some sl) (hm : sl.node = some m)
    (htag : n'.sub_node.tag = m.sub_node.tag) :
    (setNodeAt st i n').map slotTag = st.map slotTag := by
  have hlen : i < st.length := by
    by_contra hge
    rw [List.getElem?_eq_none (by omega)] at hsl
    cases hsl
  have hset : setNodeAt st i n' = st.set i { sl with node := some n' } := by
    unfold setNodeAt
    rw [hsl]
  rw [hset, List.map_set]
  apply List.ext_getElem?
  intro j
  by_cases hj : j = i
  · subst hj
    rw [List.getElem?_set_eq_of_lt _ (by simpa using hlen)]
    rw [List.getElem?_map, hsl]
    simp [slotTag, hm, htag]
  · exact List.getElem?_set_ne (fun hh => hj hh.symm)

/-- The fan-out step keeps every node's variant tag. -/
theorem fanoutNode_tag (ptr : Pointer) (weights : List F32) (m : NodeInternal) :
    (fanoutNode ptr weights m).sub_node.tag = m.sub_node.tag := by
  by_cases hp : m.parent = some ptr
  · cases hsub : m.sub_node <;> simp [fanoutNode, hp, hsub, SubNode.tag]
  · simp [fanoutNode, hp]

/-- The fan-out step keeps every slot's tag. -/
theorem fanoutSlot_tag (ptr : Pointer) (weights : List F32) (sl : Slot) :
    slotTag (fanoutSlot ptr weights sl) = slotTag sl := by
  obtain ⟨e, nd⟩ := sl
  cases nd with
  | none => rfl
  | some m => simp [fanoutSlot, slotTag, fanoutNode_tag]

/-- The fan-out branch keeps the storage's tag sequence. -/
theorem fanout_tagMap (ptr : Pointer) (weights : List F32) (st : Storage) :
    (st.map (fanoutSlot ptr weights)).map slotTag = st.map slotTag := by
  induction st with
  | nil => rfl
  | cons a t ih => simp only [List.map_cons, ih, fanoutSlot_tag]

/-- One dispatched message keeps the storage's tag sequence. -/
theorem applyMessage_tagMap (rgbOf : Color → F32 × F32 × F32) (ptr : Pointer)
    (operation : Operation) (st st' : Storage)
    (h : applyMessage rgbOf ptr operation st = some st') :
    st'.map slotTag = st.map slotTag := by
  by_cases hw : ∃ weights, operation = Operation.SetWeights weights
  · obtain ⟨weights, rfl⟩ := hw
    simp only [applyMessage] at h
    split at h
    next n hlook =>
      split at h
      next material gpu skeleton hsub =>
        have hst' := Option.some_inj.mp h
        subst hst'
        obtain ⟨ps, hps, hep, hpn⟩ := lookupNode_spec st ptr n hlook
        exact setNodeAt_tagMap st ptr.index ps n _ hps hpn (by simp [SubNode.tag, hsub])
      next hsub =>
        have hst' := Option.some_inj.mp h
        subst hst'
        exact fanout_tagMap ptr weights st
    next hlook =>
      have hst' := Option.some_inj.mp h
      subst hst'
      rfl
  · have hgen : applyMessage rgbOf ptr operation st =
        match lookupNode st ptr with
        | some n => (applyOperation rgbOf operation n).map (setNodeAt st ptr.index)
        | none => some st := by
      cases operation <;> first | rfl | exact absurd ⟨_, rfl⟩ hw
    rw [hgen] at h
    split at h
    next n hlook =>
      rw [Option.map_eq_some'] at h
      obtain ⟨n', happ, hset⟩ := h
      subst hset
      obtain ⟨ps, hps, hep, hpn⟩ := lookupNode_spec st ptr n hlook
      exact setNodeAt_tagMap st ptr.index ps n n' hps hpn
        (applyOperation_tag rgbOf operation n n' happ)
    next hlook =>
      have hst' := Option.some_inj.mp h
      subst hst'
      rfl

/-- C9: draining any message sequence never changes any node's payload
variant tag — the per-slot tag sequence of the storage is invariant
under `process_messages`. -/
theorem process_messages_preserves_variant_tags
    (rgbOf : Color → F32 × F32 × F32) (msgs : List Message) :
    ∀ st st' : Storage, process_messages rgbOf msgs st = some st' →
      st'.map slotTag = st.map slotTag := by
  induction msgs with
  | nil =>
      intro st st' h
      simp only [process_messages, Option.some.injEq] at h
      subst h
      rfl
  | cons msg rest ih =>
      intro st st' h
      obtain ⟨w, operation⟩ := msg
      simp only [process_messages] at h
      split at h
      next hlook => exact ih st st' h
      next n hlook =>
        split at h
        next st1 happ =>
          rw [ih st1 st' h]
          exact applyMessage_tagMap rgbOf w operation st st1 happ
        next happ => cases h

/-- Closed instance of tag preservation: one drained `SetVisible`
message on a one-node storage. -/
theorem process_messages_preserves_variant_tags_witness :
    process_messages rgb0 [({ index := 0, epoch := 0 }, Operation.SetVisible false)] c2Storage =
      some [{ epoch := 0, node := some { exNode with visible := false } }] ∧
    ([{ epoch := 0, node := some { exNode with visible := false } }] : Storage).map slotTag =
      c2Storage.map slotTag :=
  ⟨rfl,
   process_messages_preserves_variant_tags rgb0
     [({ index := 0, epoch := 0 }, Operation.SetVisible false)] c2Storage
     [{ epoch := 0, node := some { exNode with visible := false } }] rfl⟩

end Three
